import Mathlib

/-!
Verification of the AgentConnect Registration & Discovery Engine.

This file gives a shallow embedding of the registration core of the
repository (`backend/app/core/security.py` and
`backend/app/services/mcp_registration.py`) and proves the testable
properties of its specification against that embedding.

Modelling conventions:
* Python dicts are association lists `List (String × Json)` in insertion
  order; JSON-shaped values are the inductive `Json` (floats are outside
  the modelled fragment).
* Machine-level concerns (uuid4 identifiers, wall-clock timestamps,
  logging) are elided or replaced by a counter; they do not affect any
  property proved here.
* Network I/O is modelled by an oracle (`NetworkBehavior`) giving the
  outcome of each GET/POST, and every function that performs I/O also
  returns the list of HTTP requests it issued.
-/

namespace AgentConnect

/-- JSON-shaped values (the fragment used by the registration engine:
null, booleans, integers, strings, arrays, objects). -/
inductive Json where
  | null
  | bool (b : Bool)
  | num (n : Int)
  | str (s : String)
  | arr (elems : List Json)
  | obj (entries : List (String × Json))

/-- Python `needle in hay` on strings: substring containment. -/
def containsSubstr (hay needle : String) : Bool :=
  (List.range (hay.toList.length + 1)).any fun i =>
    needle.toList.isPrefixOf (hay.toList.drop i)

/-- Python `s.lower()` on the ASCII fragment. -/
def pyLower (s : String) : String :=
  String.mk (s.toList.map Char.toLower)

/-- Fuelled worker for `pySplitOn` (structural recursion keeps it
kernel-reducible). -/
def splitGo (sep : List Char) : Nat → List Char → List Char → List (List Char)
  | 0, l, acc => [acc.reverse ++ l]
  | fuel + 1, l, acc =>
    match l with
    | [] => [acc.reverse]
    | c :: rest =>
      if sep.isPrefixOf (c :: rest) then
        acc.reverse :: splitGo sep fuel (List.drop sep.length (c :: rest)) []
      else
        splitGo sep fuel rest (c :: acc)

/-- Python `s.split(sep)` for a non-empty separator. -/
def pySplitOn (s sep : String) : List String :=
  (splitGo sep.toList s.toList.length s.toList []).map String.mk

/-- Fuelled scan for the first occurrence of a separator, returning the
pieces before and after it. -/
def splitFirst (sep : List Char) : Nat → List Char → List Char →
    Option (List Char × List Char)
  | 0, _, _ => none
  | fuel + 1, l, acc =>
    match l with
    | [] => none
    | c :: rest =>
      if sep.isPrefixOf (c :: rest) then
        some (acc.reverse, List.drop sep.length (c :: rest))
      else
        splitFirst sep fuel rest (c :: acc)

/-- Python `d.get(k, default)` on a dict modelled as an association list. -/
def dictGet (entries : List (String × Json)) (k : String) (dflt : Json) : Json :=
  match entries.find? (fun kv => kv.1 == k) with
  | some kv => kv.2
  | none => dflt

/-- Lower-case hex digit. -/
def hexDigit (n : Nat) : Char :=
  "0123456789abcdef".toList.getD n '0'

/-- Four lower-case hex digits, as produced by Python's `\uXXXX` escapes. -/
def toHex4 (n : Nat) : String :=
  String.mk [hexDigit (n / 4096 % 16), hexDigit (n / 256 % 16),
             hexDigit (n / 16 % 16), hexDigit (n % 16)]

/-- Escape of one character in Python `json.dumps` output
(default `ensure_ascii=True`): `"` and `\` get a backslash escape, the
named control escapes are two characters, other characters outside
U+0020..U+007E become `\uXXXX` (a surrogate pair above U+FFFF). -/
def pyEscapeChar (c : Char) : String :=
  if c = '"' then "\\\""
  else if c = '\\' then "\\\\"
  else if c.val = 8 then "\\b"
  else if c.val = 9 then "\\t"
  else if c.val = 10 then "\\n"
  else if c.val = 12 then "\\f"
  else if c.val = 13 then "\\r"
  else if 32 ≤ c.val ∧ c.val ≤ 126 then String.mk [c]
  else if c.toNat ≤ 65535 then "\\u" ++ toHex4 c.toNat
  else
    "\\u" ++ toHex4 (55296 + (c.toNat - 65536) / 1024) ++
    "\\u" ++ toHex4 (56320 + (c.toNat - 65536) % 1024)

/-- Python `json.dumps` of a string value. -/
def pyDumpsStr (s : String) : String :=
  "\"" ++ String.join (s.toList.map pyEscapeChar) ++ "\""

mutual

/-- Python `json.dumps` with the default separators (`", "` and `": "`)
and `ensure_ascii=True`, on the modelled `Json` fragment. -/
def pyDumps : Json → String
  | Json.null => "null"
  | Json.bool true => "true"
  | Json.bool false => "false"
  | Json.num n => toString n
  | Json.str s => pyDumpsStr s
  | Json.arr elems => "[" ++ pyDumpsList elems ++ "]"
  | Json.obj entries => "\x7b" ++ pyDumpsObj entries ++ "\x7d"

/-- Comma-joined `json.dumps` of array elements. -/
def pyDumpsList : List Json → String
  | [] => ""
  | [x] => pyDumps x
  | x :: y :: rest => pyDumps x ++ ", " ++ pyDumpsList (y :: rest)

/-- Comma-joined `json.dumps` of object entries. -/
def pyDumpsObj : List (String × Json) → String
  | [] => ""
  | [(k, v)] => pyDumpsStr k ++ ": " ++ pyDumps v
  | (k, v) :: kv :: rest =>
    pyDumpsStr k ++ ": " ++ pyDumps v ++ ", " ++ pyDumpsObj (kv :: rest)

end

/-- The sensitive-key markers of `sanitize_metadata`
(`security.py:188`). -/
def sensitiveKeys : List String :=
  ["password", "secret", "token", "key", "credential"]

/-- Whether `any(sensitive in key.lower() for sensitive in sensitive_keys)`
holds for a metadata key. -/
def isSensitiveKey (k : String) : Bool :=
  sensitiveKeys.any fun s => containsSubstr (pyLower k) s

/-- `sanitize_metadata` (`security.py:178-199`): redact the value of every
key containing a sensitive marker, recurse into dict values, keep the
rest unchanged. -/
def sanitizeMetadata : List (String × Json) → List (String × Json)
  | [] => []
  | (k, v) :: rest =>
    if isSensitiveKey k then
      (k, Json.str "[REDACTED]") :: sanitizeMetadata rest
    else
      match v with
      | Json.obj inner => (k, Json.obj (sanitizeMetadata inner)) :: sanitizeMetadata rest
      | _ => (k, v) :: sanitizeMetadata rest

/-! IP-address parsing and classification, modelling the Python `ipaddress`
module (CPython 3.12 semantics) as used by `validate_url_security`. -/

/-- One dotted-quad octet, as parsed by `ipaddress` for IPv4: decimal
digits only, at most three of them, no leading zero, value at most 255. -/
def parseV4Octet (s : String) : Option Nat :=
  let cs := s.toList
  if cs = [] then none
  else if ¬ cs.all Char.isDigit then none
  else if cs.length > 3 then none
  else if cs.length > 1 ∧ cs.headD '0' = '0' then none
  else
    let n := cs.foldl (fun a c => a * 10 + (c.toNat - 48)) 0
    if n ≤ 255 then some n else none

/-- IPv4 literal parsing: exactly four octets separated by dots. Returns
the 32-bit value. -/
def parseIPv4 (s : String) : Option Nat :=
  match (pySplitOn s ".").mapM parseV4Octet with
  | some [a, b, c, d] => some (((a * 256 + b) * 256 + c) * 256 + d)
  | _ => none

/-- ASCII hex digit test for IPv6 hextets. -/
def isHexDigitChar (c : Char) : Bool :=
  c.isDigit ∨ ('a' ≤ c ∧ c ≤ 'f') ∨ ('A' ≤ c ∧ c ≤ 'F')

/-- Hex digit value. -/
def hexVal (c : Char) : Nat :=
  if c.isDigit then c.toNat - 48
  else if 'a' ≤ c ∧ c ≤ 'f' then c.toNat - 87
  else c.toNat - 55

/-- One IPv6 hextet: one to four hex digits. -/
def parseHextet (s : String) : Option Nat :=
  let cs := s.toList
  if cs = [] ∨ cs.length > 4 ∨ ¬ cs.all isHexDigitChar then none
  else some (cs.foldl (fun a c => a * 16 + hexVal c) 0)

/-- IPv6 literal parsing, following `ipaddress._ip_int_from_string`:
split on `:`, expand a trailing dotted-quad into two hextets, locate the
at-most-one `::` gap, and fold hextets into the 128-bit value. Zone
identifiers (`%zone`) are outside the modelled fragment. -/
def parseIPv6 (s : String) : Option Nat :=
  let parts0 := pySplitOn s ":"
  if parts0.length < 3 then none else
  let expanded : Option (List String) :=
    let lastPart := parts0.getLastD ""
    if lastPart.toList.contains '.' then
      (parseIPv4 lastPart).map fun v4 =>
        parts0.dropLast ++ [toHex4 (v4 / 65536), toHex4 (v4 % 65536)]
    else some parts0
  match expanded with
  | none => none
  | some parts =>
    if parts.length > 9 then none else
    let interiorGaps := (List.range parts.length).filter fun i =>
      0 < i ∧ i < parts.length - 1 ∧ parts.getD i "x" = ""
    match interiorGaps with
    | [] =>
      if parts.length ≠ 8 then none
      else if parts.headD "x" = "" ∨ parts.getLastD "x" = "" then none
      else (parts.mapM parseHextet).map fun hs =>
        hs.foldl (fun a h => a * 65536 + h) 0
    | [skipIndex] =>
      if parts.headD "x" = "" ∧ skipIndex ≠ 1 then none
      else if parts.getLastD "x" = "" ∧ skipIndex ≠ parts.length - 2 then none
      else
        let partsHi := if parts.headD "x" = "" then 0 else skipIndex
        let partsLo := if parts.getLastD "x" = "" then 0 else parts.length - skipIndex - 1
        if partsHi + partsLo ≥ 8 then none
        else
          match (parts.take partsHi).mapM parseHextet,
                (parts.drop (parts.length - partsLo)).mapM parseHextet with
          | some his, some los =>
            let afterHi := his.foldl (fun a h => a * 65536 + h) 0
            some (los.foldl (fun a h => a * 65536 + h)
                    (afterHi * 65536 ^ (8 - (partsHi + partsLo))))
          | _, _ => none
    | _ => none

/-- An IP address as classified by `ipaddress.ip_address`. -/
inductive IpAddr where
  | v4 (n : Nat)
  | v6 (n : Nat)
deriving DecidableEq, Repr

/-- `ipaddress.ip_address(hostname)`: IPv4 first, then IPv6. -/
def ipAddressParse (s : String) : Option IpAddr :=
  match parseIPv4 s with
  | some n => some (IpAddr.v4 n)
  | none => (parseIPv6 s).map IpAddr.v6

/-- Membership of a 32-bit value in an IPv4 network given by its base
value and mask length. -/
def v4InNet (n net bits : Nat) : Bool :=
  n / 2 ^ (32 - bits) = net / 2 ^ (32 - bits)

/-- Build an IPv4 value from its four octets. -/
def mkV4 (a b c d : Nat) : Nat := ((a * 256 + b) * 256 + c) * 256 + d

/-- Membership of a 128-bit value in an IPv6 network. -/
def v6InNet (n net bits : Nat) : Bool :=
  n / 2 ^ (128 - bits) = net / 2 ^ (128 - bits)

/-- The `_private_networks` list of `IPv4Address.is_private`. -/
def v4PrivateNets : List (Nat × Nat) :=
  [(mkV4 0 0 0 0, 8), (mkV4 10 0 0 0, 8), (mkV4 127 0 0 0, 8),
   (mkV4 169 254 0 0, 16), (mkV4 172 16 0 0, 12), (mkV4 192 0 0 0, 29),
   (mkV4 192 0 0 170, 31), (mkV4 192 0 2 0, 24), (mkV4 192 168 0 0, 16),
   (mkV4 198 18 0 0, 15), (mkV4 198 51 100 0, 24), (mkV4 203 0 113 0, 24),
   (mkV4 240 0 0 0, 4), (mkV4 255 255 255 255, 32)]

/-- The `_private_networks` list of `IPv6Address.is_private`. -/
def v6PrivateNets : List (Nat × Nat) :=
  [(1, 128), (0, 128), (0xffff * 2 ^ 32, 96), (0x100 * 2 ^ 112, 64),
   (0x2001 * 2 ^ 112, 23), (0x20010db8 * 2 ^ 96, 32),
   (0xfc00 * 2 ^ 112, 7), (0xfe80 * 2 ^ 112, 10)]

/-- The `_reserved_networks` list of `IPv6Address.is_reserved`. -/
def v6ReservedNets : List (Nat × Nat) :=
  [(0, 8), (0x100 * 2 ^ 112, 8), (0x200 * 2 ^ 112, 7), (0x400 * 2 ^ 112, 6),
   (0x800 * 2 ^ 112, 5), (0x1000 * 2 ^ 112, 4), (0x4000 * 2 ^ 112, 3),
   (0x6000 * 2 ^ 112, 3), (0x8000 * 2 ^ 112, 3), (0xa000 * 2 ^ 112, 3),
   (0xc000 * 2 ^ 112, 3), (0xe000 * 2 ^ 112, 4), (0xf000 * 2 ^ 112, 5),
   (0xf800 * 2 ^ 112, 6), (0xfe00 * 2 ^ 112, 9)]

/-- `ip.is_private`. -/
def IpAddr.isPrivate : IpAddr → Bool
  | .v4 n => v4PrivateNets.any fun p => v4InNet n p.1 p.2
  | .v6 n => v6PrivateNets.any fun p => v6InNet n p.1 p.2

/-- `ip.is_link_local` (`169.254.0.0/16`, `fe80::/10`). -/
def IpAddr.isLinkLocal : IpAddr → Bool
  | .v4 n => v4InNet n (mkV4 169 254 0 0) 16
  | .v6 n => v6InNet n (0xfe80 * 2 ^ 112) 10

/-- `ip.is_multicast` (`224.0.0.0/4`, `ff00::/8`). -/
def IpAddr.isMulticast : IpAddr → Bool
  | .v4 n => v4InNet n (mkV4 224 0 0 0) 4
  | .v6 n => v6InNet n (0xff00 * 2 ^ 112) 8

/-- `ip.is_loopback` (`127.0.0.0/8`, `::1`). -/
def IpAddr.isLoopback : IpAddr → Bool
  | .v4 n => v4InNet n (mkV4 127 0 0 0) 8
  | .v6 n => n = 1

/-- `ip.is_reserved` (`240.0.0.0/4` for IPv4, the IETF reserved blocks
for IPv6). -/
def IpAddr.isReserved : IpAddr → Bool
  | .v4 n => v4InNet n (mkV4 240 0 0 0) 4
  | .v6 n => v6ReservedNets.any fun p => v6InNet n p.1 p.2

/-! The URL-level egress validator of `security.py`. -/

/-- The outcome of `urlparse` that `validate_url_security` consumes:
the (lower-cased) scheme and the optional (lower-cased) hostname. -/
structure Url where
  scheme : String
  hostname : Option String
deriving DecidableEq, Repr

/-- One DNS label of the conservative hostname grammar
`[a-zA-Z0-9]([a-zA-Z0-9-]\x7b0,61\x7d[a-zA-Z0-9])?`. -/
def validLabel (l : List Char) : Bool :=
  match l with
  | [] => false
  | c :: rest =>
    c.isAlphanum ∧
    (rest = [] ∨
      (rest.length ≤ 62 ∧ (rest.getLastD '-').isAlphanum ∧
        rest.dropLast.all fun c' => c'.isAlphanum ∨ c' = '-'))

/-- The hostname regex of `validate_url_security` (`security.py:94`):
dot-separated valid labels. -/
def validHostnameFormat (hostname : String) : Bool :=
  (pySplitOn hostname ".").all fun l => validLabel l.toList

/-- The internal-only suffix markers (`security.py:102`), matched by
substring containment against the lower-cased hostname. -/
def internalDomainMarkers : List String := [".local", ".internal", ".home", ".lan"]

/-- `validate_url_security(url, allowed_hosts)` (`security.py:28-109`),
with `settings.ENVIRONMENT` passed explicitly. Returns
`(is_allowed, reason)`. -/
def validateUrlSecurity (settingsEnv : String) (allowedHosts : List String)
    (url : Url) : Bool × String :=
  if ¬ (["http", "https", "ws", "wss"].contains url.scheme) then
    (false, "Invalid scheme: " ++ url.scheme)
  else if settingsEnv = "production" ∧ (url.scheme = "http" ∨ url.scheme = "ws") then
    (false, "HTTP/WS not allowed in production environment")
  else
    let hostname := url.hostname.getD ""
    if hostname = "" then
      (false, "No hostname found in URL")
    else if allowedHosts.contains hostname then
      (true, "Hostname in allowed list")
    else
      match ipAddressParse hostname with
      | some ip =>
        if ip.isPrivate then (false, "Private IP address not allowed: " ++ hostname)
        else if ip.isLinkLocal then (false, "Link-local IP address not allowed: " ++ hostname)
        else if ip.isMulticast then (false, "Multicast IP address not allowed: " ++ hostname)
        else if ip.isLoopback then (false, "Loopback IP address not allowed: " ++ hostname)
        else if ip.isReserved then (false, "Reserved IP address not allowed: " ++ hostname)
        else if settingsEnv = "production" then
          (false, "IP address not in allowed list: " ++ hostname)
        else (true, "IP address allowed in non-production environment")
      | none =>
        if ¬ validHostnameFormat hostname then
          (false, "Invalid hostname format: " ++ hostname)
        else if ["localhost", "127.0.0.1", "::1"].contains (pyLower hostname) then
          (false, "Localhost not allowed: " ++ hostname)
        else if internalDomainMarkers.any (fun d => containsSubstr (pyLower hostname) d) then
          (false, "Internal domain not allowed: " ++ hostname)
        else
          (false, "Hostname not in allowed list: " ++ hostname)

/-- The extra hosts appended to the effective allow-list for servers in
the `development` environment (`security.py:127-128`). -/
def devExtraHosts : List String := ["localhost", "127.0.0.1", "0.0.0.0"]

/-- `validate_mcp_server_url(url, environment)` (`security.py:112-137`):
extends the configured allow-list for `development`, then raises
`SSRFProtectionError` when `validate_url_security` denies. `some msg`
models the raised error, `none` models a silent pass. -/
def validateMcpServerUrl (settingsEnv : String) (configuredHosts : List String)
    (environment : String) (url : Url) : Option String :=
  let allowedHosts :=
    configuredHosts ++ (if environment = "development" then devExtraHosts else [])
  let r := validateUrlSecurity settingsEnv allowedHosts url
  if r.1 then none else some ("URL not allowed: " ++ r.2)

/-- The hostname part of a netloc, as computed by `urlsplit().hostname`:
strip userinfo at the last `@`, read a bracketed IPv6 literal or the part
before the port colon, lower-case, empty becomes `None`. -/
def hostOfNetloc (netloc : String) : Option String :=
  let hostinfo := (pySplitOn netloc "@").getLastD netloc
  if hostinfo.toList.headD ' ' = '[' then
    let inner := String.mk ((hostinfo.toList.drop 1).takeWhile fun c => c ≠ ']')
    if inner = "" then none else some (pyLower inner)
  else
    let host := (pySplitOn hostinfo ":").headD ""
    if host = "" then none else some (pyLower host)

/-- `urlparse` restricted to the absolute hierarchical URLs the
registration engine receives (`scheme://netloc/...`): scheme before the
first `://`, netloc up to the first `/`, `?` or `#`. -/
def pyUrlparse (url : String) : Url :=
  match splitFirst "://".toList url.toList.length url.toList [] with
  | none => { scheme := "", hostname := none }
  | some (schemeChars, restChars) =>
    let netloc := String.mk (restChars.takeWhile fun c => c ≠ '/' ∧ c ≠ '?' ∧ c ≠ '#')
    { scheme := pyLower (String.mk schemeChars), hostname := hostOfNetloc netloc }

/-! Data model of the registration pipeline
(`services/mcp_registration.py` and `models/mcp_server.py`). -/

/-- The deployment settings consumed by the pipeline. -/
structure SettingsModel where
  ENVIRONMENT : String
  DEBUG : Bool
  ALLOWED_EGRESS_HOSTS : List String

/-- `McpToolType` of `schemas/mcp_protocol.py`. -/
inductive McpToolType where
  | function
  | procedure
deriving DecidableEq, Repr

/-- The `.value` of a tool type. -/
def McpToolType.value : McpToolType → String
  | .function => "function"
  | .procedure => "procedure"

/-- `McpResourceType` of `schemas/mcp_protocol.py`. -/
inductive McpResourceType where
  | file
  | directory
deriving DecidableEq, Repr

/-- The `.value` of a resource type. -/
def McpResourceType.value : McpResourceType → String
  | .file => "file"
  | .directory => "directory"

/-- `McpTool`: a declared tool. `input_schema` is kept as its
JSON `model_dump`. -/
structure McpTool where
  name : String
  description : Option String
  input_schema : Json
  tool_type : McpToolType

/-- `McpResource`: a declared resource (its optional metadata block is
kept as its JSON dump). -/
structure McpResource where
  uri : String
  name : String
  description : Option String
  resource_type : McpResourceType
  metadata : Json

/-- `McpServerInfo`: identity block of a specification or a handshake
response. -/
structure McpServerInfo where
  name : String
  version : String
  description : Option String
  capabilities : List (String × Json)

/-- `McpServerSpecification`: the caller-declared description of a
server. -/
structure McpServerSpecification where
  server_info : McpServerInfo
  resources : Option (List McpResource)
  tools : Option (List McpTool)
  schemas : Option (List (String × Json))

/-- `McpHandshakeResponse`: protocol version, server identity, and the
capability map (name to structured descriptor or boolean flag). -/
structure McpHandshakeResponse where
  protocol_version : String
  server_info : McpServerInfo
  capabilities : List (String × Json)

/-- JSON of an optional string (pydantic dumps `None` as `null`). -/
def optStrJson : Option String → Json
  | none => Json.null
  | some s => Json.str s

/-- pydantic `model_dump` of an `McpTool`. -/
def toolDump (t : McpTool) : Json :=
  Json.obj [("name", Json.str t.name), ("description", optStrJson t.description),
            ("input_schema", t.input_schema), ("tool_type", Json.str t.tool_type.value)]

/-- pydantic `model_dump` of an `McpResource`. -/
def resourceDump (r : McpResource) : Json :=
  Json.obj [("uri", Json.str r.uri), ("name", Json.str r.name),
            ("description", optStrJson r.description),
            ("resource_type", Json.str r.resource_type.value),
            ("metadata", r.metadata)]

/-- pydantic `model_dump` of an `McpServerInfo`. -/
def serverInfoDump (si : McpServerInfo) : Json :=
  Json.obj [("name", Json.str si.name), ("version", Json.str si.version),
            ("description", optStrJson si.description),
            ("capabilities", Json.obj si.capabilities)]

/-- pydantic `model_dump` of an `McpServerSpecification`. -/
def specModelDump (sp : McpServerSpecification) : Json :=
  Json.obj [("server_info", serverInfoDump sp.server_info),
            ("resources", match sp.resources with
              | none => Json.null
              | some rs => Json.arr (rs.map resourceDump)),
            ("tools", match sp.tools with
              | none => Json.null
              | some ts => Json.arr (ts.map toolDump)),
            ("schemas", match sp.schemas with
              | none => Json.null
              | some kvs => Json.obj kvs)]

/-- A row of the `mcp_servers` table that registration writes.
`id` is a counter standing in for `uuid4`; timestamps are elided. -/
structure McpServerRow where
  id : Nat
  org_id : Nat
  name : String
  description : Option String
  environment : String
  base_url : String
  ws_url : Option String
  tags : List Json
  server_metadata : List (String × Json)
  owner_user_id : Nat
  status : String
  health_status : String
  deleted_at : Option Nat

/-- A row of the `mcp_credentials` table. The fields copied from the
free-form `auth_config` dict stay JSON-typed. -/
structure McpCredentialRow where
  mcp_server_id : Nat
  credential_type : Json
  vault_path : Json
  scope : Json
  credential_metadata : List (String × Json)

/-- A row of the `mcp_capabilities` table. -/
structure McpCapabilityRow where
  mcp_server_id : Nat
  name : String
  description : Json
  version : String
  schema_json : Json
  capability_metadata : List (String × Json)

/-- The calling principal: organization scope and identity. -/
structure UserModel where
  id : Nat
  org_id : Nat

/-- The free-form `auth_config` dict. -/
def AuthConfig := List (String × Json)

/-- The SQLAlchemy session: committed rows, pending (added, not yet
committed) rows, and the id counter standing in for `uuid4`. -/
structure DbState where
  servers : List McpServerRow
  credentials : List McpCredentialRow
  capabilities : List McpCapabilityRow
  pendingServers : List McpServerRow
  pendingCredentials : List McpCredentialRow
  pendingCapabilities : List McpCapabilityRow
  nextId : Nat

/-- `db.commit()`: pending rows become durable. -/
def DbState.commit (db : DbState) : DbState :=
  { servers := db.servers ++ db.pendingServers,
    credentials := db.credentials ++ db.pendingCredentials,
    capabilities := db.capabilities ++ db.pendingCapabilities,
    pendingServers := [], pendingCredentials := [], pendingCapabilities := [],
    nextId := db.nextId }

/-- `db.rollback()`: pending rows are discarded. -/
def DbState.rollback (db : DbState) : DbState :=
  { db with pendingServers := [], pendingCredentials := [], pendingCapabilities := [] }

/-- An HTTP request issued by the pipeline (timeout in seconds; the
`httpx.AsyncClient` is built with `timeout=30.0` at every call site). -/
structure HttpRequest where
  method : String
  url : String
  timeout : Nat
deriving DecidableEq, Repr

/-- The behavior of the outside network: whether each GET returns a
success status, and what each handshake POST yields (`none` models any
`httpx.HTTPError`, including non-2xx statuses). `getSpec` models
fetching and parsing a remote specification document. -/
structure NetworkBehavior where
  getOk : String → Bool
  postHandshake : String → Option McpHandshakeResponse
  getSpec : String → Option McpServerSpecification

/-- The errors register_from_specification can surface: `ValueError`
(validation / connectivity) or `HTTPException` (conflict). -/
inductive RegError where
  | valueError (msg : String)
  | httpException (statusCode : Nat) (detail : String)

/-- Result of one registration attempt: outcome, resulting session
state, and the trace of HTTP requests issued. -/
structure RegResult where
  result : Except RegError McpServerRow
  db : DbState
  trace : List HttpRequest

/-- `_validate_specification` (`mcp_registration.py:170-191`). -/
def validateSpecification (spec : McpServerSpecification) : Except String Unit :=
  if spec.server_info.name = "" ∨ spec.server_info.version = "" then
    Except.error "Server name and version are required"
  else if (spec.tools.getD []).isEmpty = false ∧
      ((spec.tools.getD []).map McpTool.name).dedup.length ≠
        ((spec.tools.getD []).map McpTool.name).length then
    Except.error "Tool names must be unique"
  else if (spec.resources.getD []).isEmpty = false ∧
      ((spec.resources.getD []).map McpResource.uri).dedup.length ≠
        ((spec.resources.getD []).map McpResource.uri).length then
    Except.error "Resource URIs must be unique"
  else if (spec.schemas.getD []).isEmpty = false ∧
      (pyDumps (Json.obj (spec.schemas.getD []))).length > 65536 then
    Except.error "Schemas size exceeds 64KB limit"
  else
    Except.ok ()

/-- `_test_server_connectivity` (`mcp_registration.py:205-225`): GET
`<endpoint>/health`, falling back to GET `<endpoint>/`; raises
`ValueError` when both fail. Auth headers do not influence the modelled
outcome and are elided. -/
def testServerConnectivity (net : NetworkBehavior) (endpointUrl : String) :
    Except String Unit × List HttpRequest :=
  let primary : HttpRequest := { method := "GET", url := endpointUrl ++ "/health", timeout := 30 }
  if net.getOk primary.url then
    (Except.ok (), [primary])
  else
    let fallback : HttpRequest := { method := "GET", url := endpointUrl ++ "/", timeout := 30 }
    if net.getOk fallback.url then
      (Except.ok (), [primary, fallback])
    else
      (Except.error "Server connectivity test failed", [primary, fallback])

/-- The synthetic minimal handshake result substituted when both
handshake attempts fail (`mcp_registration.py:265-272`). -/
def minimalHandshakeResponse : McpHandshakeResponse :=
  { protocol_version := "1.0",
    server_info := { name := "unknown", version := "1.0.0",
                     description := none, capabilities := [] },
    capabilities := [] }

/-- `_perform_handshake` (`mcp_registration.py:227-272`): POST
`<endpoint>/mcp/handshake`, falling back to POST `<endpoint>/handshake`;
when both fail it does not raise and returns the synthetic minimal
response. -/
def performHandshake (net : NetworkBehavior) (endpointUrl : String) :
    McpHandshakeResponse × List HttpRequest :=
  let primary : HttpRequest := { method := "POST", url := endpointUrl ++ "/mcp/handshake", timeout := 30 }
  match net.postHandshake primary.url with
  | some resp => (resp, [primary])
  | none =>
    let fallback : HttpRequest := { method := "POST", url := endpointUrl ++ "/handshake", timeout := 30 }
    match net.postHandshake fallback.url with
    | some resp => (resp, [primary, fallback])
    | none => (minimalHandshakeResponse, [primary, fallback])

/-- The `environment or ("development" if settings.DEBUG else "production")`
expression of `_create_server_record` (`mcp_registration.py:304`); `none`
and the empty string are falsy. -/
def resolvedEnvironment (settings : SettingsModel) (environment : Option String) : String :=
  match environment with
  | some e => if e = "" then (if settings.DEBUG then "development" else "production") else e
  | none => if settings.DEBUG then "development" else "production"

/-- The duplicate pre-check filter of `_create_server_record`
(`mcp_registration.py:307-312`): same organization, name and environment,
not soft-deleted. -/
def duplicatePredicate (user : UserModel) (spec : McpServerSpecification)
    (serverEnvironment : String) (s : McpServerRow) : Bool :=
  s.org_id == user.org_id && s.name == spec.server_info.name &&
    s.environment == serverEnvironment && s.deleted_at == none

/-- `_create_server_record` (`mcp_registration.py:293-357`): resolve the
environment default, run the duplicate pre-check, add the server row
(and the credential row when `auth_config` is given). `Except.error`
models the 400 `HTTPException` detail. -/
def createServerRecord (settings : SettingsModel) (db : DbState)
    (spec : McpServerSpecification) (endpointUrl : String)
    (currentUser : UserModel) (authConfig : Option AuthConfig)
    (environment : Option String) : Except String (McpServerRow × DbState) :=
  let serverEnvironment := resolvedEnvironment settings environment
  match (db.servers ++ db.pendingServers).find?
      (duplicatePredicate currentUser spec serverEnvironment) with
  | some _ =>
    Except.error ("Server with name '" ++ spec.server_info.name ++
      "' already exists in " ++ serverEnvironment ++ " environment")
  | none =>
    let server : McpServerRow :=
      { id := db.nextId, org_id := currentUser.org_id,
        name := spec.server_info.name,
        description := spec.server_info.description,
        environment := serverEnvironment, base_url := endpointUrl,
        ws_url := none, tags := [],
        server_metadata := sanitizeMetadata
          [("version", Json.str spec.server_info.version),
           ("capabilities", Json.obj spec.server_info.capabilities),
           ("schemas", match spec.schemas with
             | none => Json.null
             | some kvs => Json.obj kvs),
           ("specification", specModelDump spec)],
        owner_user_id := currentUser.id, status := "active",
        health_status := "healthy", deleted_at := none }
    let db1 := { db with pendingServers := db.pendingServers ++ [server],
                         nextId := db.nextId + 1 }
    match authConfig with
    | some ac =>
      let credential : McpCredentialRow :=
        { mcp_server_id := server.id,
          credential_type := dictGet ac "type" (Json.str "bearer_token"),
          vault_path := dictGet ac "vault_path" (Json.str ""),
          scope := dictGet ac "scope" (Json.arr []),
          credential_metadata := sanitizeMetadata ac }
      Except.ok (server, { db1 with
        pendingCredentials := db1.pendingCredentials ++ [credential] })
    | none => Except.ok (server, db1)

/-- The capability row written for a declared tool
(`mcp_registration.py:368-382`). -/
def toolCapabilityRow (server : McpServerRow) (sp : McpServerSpecification)
    (t : McpTool) : McpCapabilityRow :=
  { mcp_server_id := server.id, name := t.name,
    description := optStrJson t.description,
    version := sp.server_info.version, schema_json := t.input_schema,
    capability_metadata := sanitizeMetadata
      [("tool_type", Json.str t.tool_type.value),
       ("discovered_from", Json.str "specification")] }

/-- The capability row written for a declared resource
(`mcp_registration.py:385-404`). -/
def resourceCapabilityRow (server : McpServerRow) (sp : McpServerSpecification)
    (r : McpResource) : McpCapabilityRow :=
  { mcp_server_id := server.id, name := "resource_" ++ r.name,
    description := Json.str ("Resource: " ++
      (match r.description with
       | some d => if d = "" then r.name else d
       | none => r.name)),
    version := sp.server_info.version,
    schema_json := Json.obj [("type", Json.str "resource"), ("uri", Json.str r.uri),
                             ("resource_type", Json.str r.resource_type.value)],
    capability_metadata := sanitizeMetadata
      [("resource_type", Json.str r.resource_type.value), ("uri", Json.str r.uri),
       ("discovered_from", Json.str "specification")] }

/-- The capability row written for one handshake capability-map entry
(`mcp_registration.py:407-429`): a dict value supplies its
`description` field and itself as the schema; any other value is
wrapped into an `enabled` schema. -/
def handshakeCapabilityRow (server : McpServerRow) (hr : McpHandshakeResponse)
    (entry : String × Json) : McpCapabilityRow :=
  match entry.2 with
  | Json.obj kvs =>
    { mcp_server_id := server.id, name := entry.1,
      description := dictGet kvs "description" (Json.str ""),
      version := hr.server_info.version, schema_json := Json.obj kvs,
      capability_metadata := sanitizeMetadata
        [("discovered_from", Json.str "handshake")] }
  | other =>
    { mcp_server_id := server.id, name := entry.1,
      description := Json.str ("Capability: " ++ entry.1),
      version := hr.server_info.version,
      schema_json := Json.obj [("enabled", other)],
      capability_metadata := sanitizeMetadata
        [("discovered_from", Json.str "handshake")] }

/-- `_store_capabilities` (`mcp_registration.py:359-429`): add one row
per declared tool, per declared resource, and per handshake capability
entry, in that order. -/
def storeCapabilities (db : DbState) (server : McpServerRow)
    (spec : Option McpServerSpecification) (hr : McpHandshakeResponse) : DbState :=
  let toolRows := match spec with
    | some sp => (sp.tools.getD []).map (toolCapabilityRow server sp)
    | none => []
  let resourceRows := match spec with
    | some sp => (sp.resources.getD []).map (resourceCapabilityRow server sp)
    | none => []
  let handshakeRows := hr.capabilities.map (handshakeCapabilityRow server hr)
  { db with pendingCapabilities :=
      db.pendingCapabilities ++ toolRows ++ resourceRows ++ handshakeRows }

/-- `register_from_specification` (`mcp_registration.py:30-89`). Note
that, as in the source, the step-2 call to `validate_url_security`
discards the returned `(is_allowed, reason)` tuple, and any exception
triggers `db.rollback()` before re-raising. -/
def registerFromSpecification (settings : SettingsModel) (net : NetworkBehavior)
    (db : DbState) (spec : McpServerSpecification) (endpointUrl : String)
    (currentUser : UserModel) (authConfig : Option AuthConfig)
    (environment : Option String) (_requestId : Option String) : RegResult :=
  match validateSpecification spec with
  | Except.error m =>
    { result := Except.error (RegError.valueError m), db := db.rollback, trace := [] }
  | Except.ok _ =>
    let _discardedSecurityCheck :=
      validateUrlSecurity settings.ENVIRONMENT settings.ALLOWED_EGRESS_HOSTS
        (pyUrlparse endpointUrl)
    match testServerConnectivity net endpointUrl with
    | (Except.error m, t1) =>
      { result := Except.error (RegError.valueError m), db := db.rollback, trace := t1 }
    | (Except.ok _, t1) =>
      let hs := performHandshake net endpointUrl
      match createServerRecord settings db spec endpointUrl currentUser authConfig environment with
      | Except.error detail =>
        { result := Except.error (RegError.httpException 400 detail),
          db := db.rollback, trace := t1 ++ hs.2 }
      | Except.ok (server, db1) =>
        let db2 := storeCapabilities db1 server (some spec) hs.1
        { result := Except.ok server, db := db2.commit, trace := t1 ++ hs.2 }

/-- `register_from_json_file` (`mcp_registration.py:91-131`). Reading
and JSON-parsing the file are elided: `specData` is the parsed
specification the file contains. The delegation mirrors the source call
`register_from_specification(spec, endpoint_url, current_user,
auth_config, request_id)`, whose fifth positional argument lands in the
`environment` parameter slot. -/
def registerFromJsonFile (settings : SettingsModel) (net : NetworkBehavior)
    (db : DbState) (specData : McpServerSpecification) (endpointUrl : String)
    (currentUser : UserModel) (authConfig : Option AuthConfig)
    (requestId : Option String) : RegResult :=
  registerFromSpecification settings net db specData endpointUrl currentUser
    authConfig requestId none

/-- `_load_specification_from_url` (`mcp_registration.py:193-203`); the
`validate_url_security` result is discarded here too. -/
def loadSpecificationFromUrl (settings : SettingsModel) (net : NetworkBehavior)
    (specUrl : String) : Except String McpServerSpecification × List HttpRequest :=
  let _discardedSecurityCheck :=
    validateUrlSecurity settings.ENVIRONMENT settings.ALLOWED_EGRESS_HOSTS
      (pyUrlparse specUrl)
  let req : HttpRequest := { method := "GET", url := specUrl, timeout := 30 }
  match net.getSpec specUrl with
  | some spec => (Except.ok spec, [req])
  | none => (Except.error "Failed to fetch specification from URL", [req])

/-- `register_from_url` (`mcp_registration.py:133-168`); the delegation
has the same positional `request_id`-into-`environment` slot as
`register_from_json_file`. -/
def registerFromUrl (settings : SettingsModel) (net : NetworkBehavior)
    (db : DbState) (specUrl : String) (endpointUrl : String)
    (currentUser : UserModel) (authConfig : Option AuthConfig)
    (requestId : Option String) : RegResult :=
  match loadSpecificationFromUrl settings net specUrl with
  | (Except.ok spec, t0) =>
    let r := registerFromSpecification settings net db spec endpointUrl currentUser
      authConfig requestId none
    { r with trace := t0 ++ r.trace }
  | (Except.error m, t0) =>
    { result := Except.error (RegError.valueError m), db := db, trace := t0 }

/-! Observers used by the theorems below. -/

/-- The provenance recorded in a capability row's metadata
(the `discovered_from` marker). -/
def discoveredFrom (row : McpCapabilityRow) : Option String :=
  match dictGet row.capability_metadata "discovered_from" Json.null with
  | Json.str s => some s
  | _ => none

/-- Number of rows in a list with the given provenance. -/
def countProvenance (rows : List McpCapabilityRow) (p : String) : Nat :=
  rows.countP fun r => discoveredFrom r == some p

/-! Concrete fixtures shared by the witnesses below. -/

/-- A session with no rows at all. -/
def emptyDb : DbState :=
  { servers := [], credentials := [], capabilities := [],
    pendingServers := [], pendingCredentials := [], pendingCapabilities := [],
    nextId := 0 }

/-- A network where every GET succeeds and every handshake POST fails. -/
def okNet : NetworkBehavior :=
  { getOk := fun _ => true, postHandshake := fun _ => none, getSpec := fun _ => none }

/-- A network where every request fails. -/
def downNet : NetworkBehavior :=
  { getOk := fun _ => false, postHandshake := fun _ => none, getSpec := fun _ => none }

/-- Development-mode settings with the default configured allow-list. -/
def devSettings : SettingsModel :=
  { ENVIRONMENT := "development", DEBUG := true,
    ALLOWED_EGRESS_HOSTS := ["api.openai.com", "api.anthropic.com"] }

/-- A calling principal. -/
def probeUser : UserModel := { id := 1, org_id := 1 }

/-- A minimal valid specification (no tools, no resources). -/
def simpleSpec : McpServerSpecification :=
  { server_info := { name := "payments", version := "1.0.0",
                     description := none, capabilities := [] },
    resources := some [], tools := some [], schemas := some [] }

/-! Helper lemmas. -/

/-- A string that is an explicit middle chunk of a concatenation is
found by `containsSubstr`. -/
theorem containsSubstr_middle (a m b : String) :
    containsSubstr (a ++ m ++ b) m = true := by
  unfold containsSubstr
  rw [List.any_eq_true]
  refine ⟨a.toList.length, ?_, ?_⟩
  · rw [List.mem_range]
    have h : (a ++ m ++ b).toList = a.toList ++ (m.toList ++ b.toList) := by
      simp
    rw [h, List.length_append]
    omega
  · have h : (a ++ m ++ b).toList = a.toList ++ (m.toList ++ b.toList) := by
      simp
    rw [h, List.drop_left, List.isPrefixOf_iff_prefix]
    exact List.prefix_append _ _

/-- The duplicate test of `_validate_specification`
(`len(names) != len(set(names))`) detects exactly the non-`Nodup`
lists. -/
theorem dedup_length_ne_iff (l : List String) :
    (l.dedup.length ≠ l.length) ↔ ¬ l.Nodup := by
  constructor
  · intro h hnd
    exact h (by rw [List.dedup_eq_self.2 hnd])
  · intro hnd h
    exact hnd (((List.dedup_sublist l).eq_of_length h) ▸ l.nodup_dedup)

/-- C7: for every URL with scheme `http` or `ws` validated while
`settings.ENVIRONMENT` is `production`, the egress validator returns
Denied. -/
theorem http_ws_denied_in_production (allowedHosts : List String) (url : Url)
    (h : url.scheme = "http" ∨ url.scheme = "ws") :
    validateUrlSecurity "production" allowedHosts url =
      (false, "HTTP/WS not allowed in production environment") := by
  rcases h with h | h <;> simp [validateUrlSecurity, h]

/-- Witness for C7 at a concrete URL. -/
theorem http_ws_denied_in_production_witness :
    validateUrlSecurity "production" ["api.openai.com"]
        { scheme := "http", hostname := some "api.openai.com" } =
      (false, "HTTP/WS not allowed in production environment") :=
  http_ws_denied_in_production ["api.openai.com"] _ (Or.inl rfl)

/-- An entry key is sensitive exactly when it contains one of the five
markers, case-insensitively. -/
theorem isSensitiveKey_eq (k : String) :
    (["password", "secret", "token", "key", "credential"].any
      fun s => containsSubstr (pyLower k) s) = isSensitiveKey k := rfl

/-- C9: the metadata sanitizer replaces the value of every entry whose
key contains the substring `password`, `secret`, `token`, `key` or
`credential` (case-insensitive) with the redaction marker, applies
itself recursively to every other entry whose value is a nested map,
and leaves all remaining entries unchanged, preserving keys and order. -/
theorem sanitizeMetadata_spec (entries : List (String × Json)) :
    sanitizeMetadata entries = entries.map fun kv =>
      if (["password", "secret", "token", "key", "credential"].any
            fun s => containsSubstr (pyLower kv.1) s) then
        (kv.1, Json.str "[REDACTED]")
      else
        match kv.2 with
        | Json.obj inner => (kv.1, Json.obj (sanitizeMetadata inner))
        | v => (kv.1, v) := by
  simp only [isSensitiveKey_eq]
  induction entries with
  | nil => simp [sanitizeMetadata]
  | cons kv rest ih =>
    obtain ⟨k, v⟩ := kv
    by_cases hk : isSensitiveKey k
    · cases v <;> simp [sanitizeMetadata, hk, ih]
    · cases v <;> simp [sanitizeMetadata, hk, ih]

/-- C8: the connectivity prober succeeds if and only if the GET to
`<endpoint>/health` or the fallback GET to `<endpoint>/` succeeds, and
raises a connectivity error exactly when both fail; it issues at most
the two GET attempts, each with the bounded 30-second timeout, and does
not retry beyond the primary/fallback pair. -/
theorem testServerConnectivity_spec (net : NetworkBehavior) (endpointUrl : String) :
    ((testServerConnectivity net endpointUrl).1 = Except.ok () ↔
      (net.getOk (endpointUrl ++ "/health") = true ∨ net.getOk (endpointUrl ++ "/") = true))
    ∧ ((∃ m, (testServerConnectivity net endpointUrl).1 = Except.error m) ↔
      (net.getOk (endpointUrl ++ "/health") = false ∧ net.getOk (endpointUrl ++ "/") = false))
    ∧ (testServerConnectivity net endpointUrl).2.length ≤ 2
    ∧ (∀ req ∈ (testServerConnectivity net endpointUrl).2,
        req.method = "GET" ∧ req.timeout = 30)
    ∧ (net.getOk (endpointUrl ++ "/health") = true →
        (testServerConnectivity net endpointUrl).2 =
          [{ method := "GET", url := endpointUrl ++ "/health", timeout := 30 }])
    ∧ (net.getOk (endpointUrl ++ "/health") = false →
        (testServerConnectivity net endpointUrl).2 =
          [{ method := "GET", url := endpointUrl ++ "/health", timeout := 30 },
           { method := "GET", url := endpointUrl ++ "/", timeout := 30 }]) := by
  by_cases h1 : net.getOk (endpointUrl ++ "/health") = true
  · simp [testServerConnectivity, h1]
  · by_cases h2 : net.getOk (endpointUrl ++ "/") = true
    · simp_all [testServerConnectivity]
    · simp_all [testServerConnectivity]

/-- Witness for C8: with an unreachable endpoint both GETs are issued
and a connectivity error is raised. -/
theorem testServerConnectivity_spec_witness :
    (testServerConnectivity downNet "https://api.example.com").2 =
      [{ method := "GET", url := "https://api.example.com/health", timeout := 30 },
       { method := "GET", url := "https://api.example.com/", timeout := 30 }] :=
  (testServerConnectivity_spec downNet "https://api.example.com").2.2.2.2.2 rfl

/-- Tool rows carry `specification` provenance. -/
theorem discoveredFrom_toolRow (server : McpServerRow) (sp : McpServerSpecification)
    (t : McpTool) :
    discoveredFrom (toolCapabilityRow server sp t) = some "specification" := by
  have h1 : isSensitiveKey "tool_type" = false := by decide
  have h2 : isSensitiveKey "discovered_from" = false := by decide
  simp [toolCapabilityRow, discoveredFrom, dictGet, sanitizeMetadata, h1, h2]

/-- Resource rows carry `specification` provenance. -/
theorem discoveredFrom_resourceRow (server : McpServerRow) (sp : McpServerSpecification)
    (r : McpResource) :
    discoveredFrom (resourceCapabilityRow server sp r) = some "specification" := by
  have h1 : isSensitiveKey "resource_type" = false := by decide
  have h2 : isSensitiveKey "uri" = false := by decide
  have h3 : isSensitiveKey "discovered_from" = false := by decide
  simp [resourceCapabilityRow, discoveredFrom, dictGet, sanitizeMetadata, h1, h2, h3]

/-- Handshake rows carry `handshake` provenance. -/
theorem discoveredFrom_handshakeRow (server : McpServerRow) (hr : McpHandshakeResponse)
    (entry : String × Json) :
    discoveredFrom (handshakeCapabilityRow server hr entry) = some "handshake" := by
  have h1 : isSensitiveKey "discovered_from" = false := by decide
  obtain ⟨n, v⟩ := entry
  cases v <;> simp [handshakeCapabilityRow, discoveredFrom, dictGet, sanitizeMetadata, h1]

/-- `countProvenance` distributes over append. -/
theorem countProvenance_append (l₁ l₂ : List McpCapabilityRow) (p : String) :
    countProvenance (l₁ ++ l₂) p = countProvenance l₁ p + countProvenance l₂ p := by
  simp [countProvenance, List.countP_append]

/-- A server row fixture for the capability-store witness. -/
def wServer : McpServerRow :=
  { id := 7, org_id := 1, name := "payments", description := none,
    environment := "staging", base_url := "https://api.example.com/mcp",
    ws_url := none, tags := [], server_metadata := [], owner_user_id := 1,
    status := "active", health_status := "healthy", deleted_at := none }

/-- A specification fixture with two tools and one resource. -/
def wSpec : McpServerSpecification :=
  { server_info := { name := "payments", version := "1.2.0",
                     description := some "payment tools", capabilities := [] },
    resources := some [{ uri := "file:///data/docs", name := "docs",
                         description := none, resource_type := McpResourceType.directory,
                         metadata := Json.null }],
    tools := some [{ name := "search", description := some "full text search",
                     input_schema := Json.obj [("type", Json.str "object")],
                     tool_type := McpToolType.function },
                   { name := "index", description := none,
                     input_schema := Json.obj [("type", Json.str "object")],
                     tool_type := McpToolType.procedure }],
    schemas := some [] }

/-- A handshake-response fixture with one structured and one boolean
capability entry. -/
def wHr : McpHandshakeResponse :=
  { protocol_version := "1.0",
    server_info := { name := "payments", version := "1.2.0",
                     description := none, capabilities := [] },
    capabilities := [("search", Json.obj [("description", Json.str "full text search")]),
                     ("flag", Json.bool true)] }

/-- C5: for a specification with `T` declared tools and `R` declared
resources and a handshake result with `H` capability-map entries,
`_store_capabilities` adds exactly `T + R + H` rows: `T + R` with
`specification` provenance and `H` with `handshake` provenance; a
structured handshake value contributes its `description` field and
itself as the schema, and a non-dict (boolean) value is wrapped into an
`enabled` schema. -/
theorem storeCapabilities_spec (db : DbState) (server : McpServerRow)
    (sp : McpServerSpecification) (hr : McpHandshakeResponse) :
    ((storeCapabilities db server (some sp) hr).pendingCapabilities.length =
        db.pendingCapabilities.length + (sp.tools.getD []).length +
          (sp.resources.getD []).length + hr.capabilities.length)
    ∧ (countProvenance (storeCapabilities db server (some sp) hr).pendingCapabilities
          "specification" =
        countProvenance db.pendingCapabilities "specification" +
          ((sp.tools.getD []).length + (sp.resources.getD []).length))
    ∧ (countProvenance (storeCapabilities db server (some sp) hr).pendingCapabilities
          "handshake" =
        countProvenance db.pendingCapabilities "handshake" + hr.capabilities.length)
    ∧ (∀ n kvs, (n, Json.obj kvs) ∈ hr.capabilities →
        ({ mcp_server_id := server.id, name := n,
           description := dictGet kvs "description" (Json.str ""),
           version := hr.server_info.version, schema_json := Json.obj kvs,
           capability_metadata := [("discovered_from", Json.str "handshake")] } :
          McpCapabilityRow) ∈
          (storeCapabilities db server (some sp) hr).pendingCapabilities)
    ∧ (∀ n b, (n, Json.bool b) ∈ hr.capabilities →
        ({ mcp_server_id := server.id, name := n,
           description := Json.str ("Capability: " ++ n),
           version := hr.server_info.version,
           schema_json := Json.obj [("enabled", Json.bool b)],
           capability_metadata := [("discovered_from", Json.str "handshake")] } :
          McpCapabilityRow) ∈
          (storeCapabilities db server (some sp) hr).pendingCapabilities) := by
  have hsan : sanitizeMetadata [("discovered_from", Json.str "handshake")] =
      [("discovered_from", Json.str "handshake")] := by
    have h1 : isSensitiveKey "discovered_from" = false := by decide
    simp [sanitizeMetadata, h1]
  refine ⟨?_, ?_, ?_, ?_, ?_⟩
  · simp [storeCapabilities]
    omega
  · simp only [storeCapabilities, countProvenance_append]
    have ht : countProvenance ((sp.tools.getD []).map (toolCapabilityRow server sp))
        "specification" = (sp.tools.getD []).length := by
      rw [countProvenance, List.countP_map]
      apply List.countP_eq_length.2
      intro t _
      simp [discoveredFrom_toolRow]
    have hrs : countProvenance ((sp.resources.getD []).map (resourceCapabilityRow server sp))
        "specification" = (sp.resources.getD []).length := by
      rw [countProvenance, List.countP_map]
      apply List.countP_eq_length.2
      intro r _
      simp [discoveredFrom_resourceRow]
    have hh : countProvenance (hr.capabilities.map (handshakeCapabilityRow server hr))
        "specification" = 0 := by
      rw [countProvenance, List.countP_map]
      apply List.countP_eq_zero.2
      intro e _
      simp [discoveredFrom_handshakeRow]
    rw [ht, hrs, hh]
    omega
  · simp only [storeCapabilities, countProvenance_append]
    have ht : countProvenance ((sp.tools.getD []).map (toolCapabilityRow server sp))
        "handshake" = 0 := by
      rw [countProvenance, List.countP_map]
      apply List.countP_eq_zero.2
      intro t _
      simp [discoveredFrom_toolRow]
    have hrs : countProvenance ((sp.resources.getD []).map (resourceCapabilityRow server sp))
        "handshake" = 0 := by
      rw [countProvenance, List.countP_map]
      apply List.countP_eq_zero.2
      intro r _
      simp [discoveredFrom_resourceRow]
    have hh : countProvenance (hr.capabilities.map (handshakeCapabilityRow server hr))
        "handshake" = hr.capabilities.length := by
      rw [countProvenance, List.countP_map]
      apply List.countP_eq_length.2
      intro e _
      simp [discoveredFrom_handshakeRow]
    rw [ht, hrs, hh]
    omega
  · intro n kvs hmem
    have hrow : handshakeCapabilityRow server hr (n, Json.obj kvs) =
        { mcp_server_id := server.id, name := n,
          description := dictGet kvs "description" (Json.str ""),
          version := hr.server_info.version, schema_json := Json.obj kvs,
          capability_metadata := [("discovered_from", Json.str "handshake")] } := by
      simp [handshakeCapabilityRow, hsan]
    simp only [storeCapabilities]
    refine List.mem_append.2 (Or.inr ?_)
    rw [← hrow]
    exact List.mem_map_of_mem _ hmem
  · intro n b hmem
    have hrow : handshakeCapabilityRow server hr (n, Json.bool b) =
        { mcp_server_id := server.id, name := n,
          description := Json.str ("Capability: " ++ n),
          version := hr.server_info.version,
          schema_json := Json.obj [("enabled", Json.bool b)],
          capability_metadata := [("discovered_from", Json.str "handshake")] } := by
      simp [handshakeCapabilityRow, hsan]
    simp only [storeCapabilities]
    refine List.mem_append.2 (Or.inr ?_)
    rw [← hrow]
    exact List.mem_map_of_mem _ hmem

/-- Witness for C5: two tools, one resource and two handshake entries
yield five rows, and the structured and boolean handshake rows have the
claimed shapes. -/
theorem storeCapabilities_spec_witness :
    ((storeCapabilities emptyDb wServer (some wSpec) wHr).pendingCapabilities.length =
      0 + 2 + 1 + 2)
    ∧ (({ mcp_server_id := 7, name := "search",
          description := Json.str "full text search",
          version := "1.2.0",
          schema_json := Json.obj [("description", Json.str "full text search")],
          capability_metadata := [("discovered_from", Json.str "handshake")] } :
        McpCapabilityRow) ∈
        (storeCapabilities emptyDb wServer (some wSpec) wHr).pendingCapabilities)
    ∧ (({ mcp_server_id := 7, name := "flag",
          description := Json.str ("Capability: " ++ "flag"),
          version := "1.2.0",
          schema_json := Json.obj [("enabled", Json.bool true)],
          capability_metadata := [("discovered_from", Json.str "handshake")] } :
        McpCapabilityRow) ∈
        (storeCapabilities emptyDb wServer (some wSpec) wHr).pendingCapabilities) :=
  ⟨(storeCapabilities_spec emptyDb wServer wSpec wHr).1,
   (storeCapabilities_spec emptyDb wServer wSpec wHr).2.2.2.1 "search"
     [("description", Json.str "full text search")] (List.Mem.head _),
   (storeCapabilities_spec emptyDb wServer wSpec wHr).2.2.2.2 "flag" true
     (List.Mem.tail _ (List.Mem.head _))⟩

/-- A hostname that parses as an IP literal is non-empty. -/
theorem ipAddressParse_ne_empty (host : String) (ip : IpAddr)
    (hip : ipAddressParse host = some ip) : host ≠ "" := by
  intro he
  rw [he] at hip
  have hnone : ipAddressParse "" = none := by decide
  rw [hnone] at hip
  exact Option.noConfusion hip

set_option maxHeartbeats 1000000 in
/-- `validate_url_security` denies every URL whose hostname is a
private, link-local, multicast, loopback or reserved IP literal not on
the allow-list, whatever the environment. -/
theorem validateUrlSecurity_bad_ip_denied (settingsEnv : String)
    (allowedHosts : List String) (url : Url) (host : String) (ip : IpAddr)
    (hh : url.hostname = some host) (hip : ipAddressParse host = some ip)
    (hbad : ip.isPrivate = true ∨ ip.isLinkLocal = true ∨ ip.isMulticast = true ∨
      ip.isLoopback = true ∨ ip.isReserved = true)
    (hmem : host ∉ allowedHosts) :
    (validateUrlSecurity settingsEnv allowedHosts url).1 = false := by
  have hne : host ≠ "" := ipAddressParse_ne_empty host ip hip
  have hcont : allowedHosts.contains host = false := by
    simpa using hmem
  unfold validateUrlSecurity
  rw [hh]
  simp only [Option.getD_some, hip, hcont]
  split_ifs <;> simp_all

/-- C2: for every URL whose hostname parses as a private, loopback,
link-local, multicast or reserved IP literal, the egress validator
(`validate_mcp_server_url`) raises a denial in every environment, except
that for `development` servers the loopback / any-address literals
`127.0.0.1` and `0.0.0.0` are appended to the effective allow-list
(never for `staging` or `production`) and such a URL is therefore
accepted (scheme rules permitting). -/
theorem ip_literal_egress_policy :
    (∀ settingsEnv configuredHosts environment url host ip,
      url.hostname = some host →
      ipAddressParse host = some ip →
      (ip.isPrivate = true ∨ ip.isLinkLocal = true ∨ ip.isMulticast = true ∨
        ip.isLoopback = true ∨ ip.isReserved = true) →
      host ∉ configuredHosts →
      ¬ (environment = "development" ∧ host ∈ devExtraHosts) →
      (validateMcpServerUrl settingsEnv configuredHosts environment url).isSome = true)
    ∧ (∀ settingsEnv configuredHosts url host,
      url.hostname = some host →
      host ∈ ["127.0.0.1", "0.0.0.0"] →
      url.scheme ∈ ["http", "https", "ws", "wss"] →
      ¬ (settingsEnv = "production" ∧ (url.scheme = "http" ∨ url.scheme = "ws")) →
      validateMcpServerUrl settingsEnv configuredHosts "development" url = none) := by
  constructor
  · intro settingsEnv configuredHosts environment url host ip hh hip hbad hcfg hdev
    have hmem : host ∉ configuredHosts ++
        (if environment = "development" then devExtraHosts else []) := by
      intro hm
      rcases List.mem_append.1 hm with h | h
      · exact hcfg h
      · by_cases he : environment = "development"
        · rw [if_pos he] at h
          exact hdev ⟨he, h⟩
        · rw [if_neg he] at h
          simp at h
    have hden := validateUrlSecurity_bad_ip_denied settingsEnv
      (configuredHosts ++ (if environment = "development" then devExtraHosts else []))
      url host ip hh hip hbad hmem
    simp [validateMcpServerUrl, hden]
  · intro settingsEnv configuredHosts url host hh hmemdev hscheme hprod
    simp only [List.mem_cons, List.not_mem_nil, or_false] at hmemdev
    have hcont : (configuredHosts ++
        (if "development" = "development" then devExtraHosts else [])).contains host = true := by
      apply List.elem_eq_true_of_mem
      refine List.mem_append.2 (Or.inr ?_)
      rw [if_pos rfl]
      rcases hmemdev with h | h <;> rw [h] <;> decide
    have hne : host ≠ "" := by
      rcases hmemdev with h | h <;> rw [h] <;> decide
    have hschemeb : (["http", "https", "ws", "wss"].contains url.scheme) = true :=
      List.elem_eq_true_of_mem hscheme
    unfold validateMcpServerUrl validateUrlSecurity
    rw [hh]
    simp only [Option.getD_some, hschemeb, hcont]
    simp [hne, hprod]
    have hmem2 : host ∈ configuredHosts ∨ host ∈ devExtraHosts := by
      refine Or.inr ?_
      rcases hmemdev with h | h <;> rw [h] <;> decide
    rw [if_pos hmem2]

/-- Witness for C2: a private IP is denied for a `staging` server, and
`127.0.0.1` is allowed for a `development` server. -/
theorem ip_literal_egress_policy_witness :
    (validateMcpServerUrl "development" ["api.openai.com"] "staging"
      { scheme := "https", hostname := some "10.0.0.5" }).isSome = true
    ∧ validateMcpServerUrl "development" ["api.openai.com"] "development"
      { scheme := "https", hostname := some "127.0.0.1" } = none :=
  ⟨ip_literal_egress_policy.1 "development" ["api.openai.com"] "staging"
      { scheme := "https", hostname := some "10.0.0.5" } "10.0.0.5"
      (IpAddr.v4 167772165) rfl (by decide) (Or.inl (by decide))
      (by decide) (by decide),
   ip_literal_egress_policy.2 "development" ["api.openai.com"]
      { scheme := "https", hostname := some "127.0.0.1" } "127.0.0.1"
      rfl (by decide) (by decide) (by decide)⟩

/-- The serialized empty schema map is two characters. -/
theorem pyDumps_empty_obj : pyDumps (Json.obj []) = "\x7b\x7d" := by
  simp [pyDumps, pyDumpsObj]

/-- C6: the specification validator raises a validation error if and
only if the server name or version is empty, two declared tools share a
name, two declared resources share a URI, or the serialized auxiliary
schema map exceeds 65536 bytes; in the registration pipeline it runs
before any network call, so a rejected specification causes zero HTTP
requests and the error propagates. -/
theorem specification_validator_spec (spec : McpServerSpecification) :
    ((∃ m, validateSpecification spec = Except.error m) ↔
      (spec.server_info.name = "" ∨ spec.server_info.version = "" ∨
        ¬ ((spec.tools.getD []).map McpTool.name).Nodup ∨
        ¬ ((spec.resources.getD []).map McpResource.uri).Nodup ∨
        (∃ kvs, spec.schemas = some kvs ∧ 65536 < (pyDumps (Json.obj kvs)).length)))
    ∧ (∀ settings net db endpointUrl user authConfig environment requestId m,
        validateSpecification spec = Except.error m →
        (registerFromSpecification settings net db spec endpointUrl user authConfig
            environment requestId).trace = []
        ∧ (registerFromSpecification settings net db spec endpointUrl user authConfig
            environment requestId).result = Except.error (RegError.valueError m)) := by
  constructor
  · constructor
    · rintro ⟨m, hm⟩
      unfold validateSpecification at hm
      split_ifs at hm with h1 h2 h3 h4
      · rcases h1 with h | h
        · exact Or.inl h
        · exact Or.inr (Or.inl h)
      · exact Or.inr (Or.inr (Or.inl ((dedup_length_ne_iff _).1 h2.2)))
      · exact Or.inr (Or.inr (Or.inr (Or.inl ((dedup_length_ne_iff _).1 h3.2))))
      · refine Or.inr (Or.inr (Or.inr (Or.inr ?_)))
        cases hs : spec.schemas with
        | none => rw [hs] at h4; simp at h4
        | some kvs =>
          refine ⟨kvs, rfl, ?_⟩
          rw [hs] at h4
          simpa using h4.2
    · intro hd
      unfold validateSpecification
      split_ifs with h1 h2 h3 h4
      · exact ⟨_, rfl⟩
      · exact ⟨_, rfl⟩
      · exact ⟨_, rfl⟩
      · exact ⟨_, rfl⟩
      · exfalso
        rcases hd with h | h | h | h | h
        · exact h1 (Or.inl h)
        · exact h1 (Or.inr h)
        · apply h2
          constructor
          · have hmapne : (spec.tools.getD []).map McpTool.name ≠ [] := by
              intro hnil
              rw [hnil] at h
              exact h List.nodup_nil
            have hne : spec.tools.getD [] ≠ [] := by
              intro hnil
              apply hmapne
              rw [hnil]
              rfl
            simpa [List.isEmpty_iff] using hne
          · exact (dedup_length_ne_iff _).2 h
        · apply h3
          constructor
          · have hmapne : (spec.resources.getD []).map McpResource.uri ≠ [] := by
              intro hnil
              rw [hnil] at h
              exact h List.nodup_nil
            have hne : spec.resources.getD [] ≠ [] := by
              intro hnil
              apply hmapne
              rw [hnil]
              rfl
            simpa [List.isEmpty_iff] using hne
          · exact (dedup_length_ne_iff _).2 h
        · obtain ⟨kvs, hks, hlen⟩ := h
          apply h4
          rw [hks]
          constructor
          · have hkne : kvs ≠ [] := by
              intro hnil
              rw [hnil] at hlen
              rw [pyDumps_empty_obj] at hlen
              exact absurd hlen (by decide)
            simpa [List.isEmpty_iff] using hkne
          · simpa using hlen
  · intro settings net db endpointUrl user authConfig environment requestId m hm
    constructor
    · simp [registerFromSpecification, hm]
    · simp [registerFromSpecification, hm]

/-- A specification fixture with a duplicated tool name. -/
def dupToolSpec : McpServerSpecification :=
  { server_info := { name := "dup-server", version := "1.0.0",
                     description := none, capabilities := [] },
    resources := some [],
    tools := some [{ name := "search", description := none,
                     input_schema := Json.obj [], tool_type := McpToolType.function },
                   { name := "search", description := none,
                     input_schema := Json.obj [], tool_type := McpToolType.function }],
    schemas := some [] }

/-- Witness for C6: a duplicate tool name is rejected with zero HTTP
requests. -/
theorem specification_validator_spec_witness :
    (registerFromSpecification devSettings okNet emptyDb dupToolSpec
      "https://api.example.com/mcp" probeUser none none none).trace = []
    ∧ (registerFromSpecification devSettings okNet emptyDb dupToolSpec
      "https://api.example.com/mcp" probeUser none none none).result =
      Except.error (RegError.valueError "Tool names must be unique") :=
  (specification_validator_spec dupToolSpec).2 devSettings okNet emptyDb
    "https://api.example.com/mcp" probeUser none none none
    "Tool names must be unique" rfl

/-- A string starting with `m` contains `m`. -/
theorem containsSubstr_self_prefix (m b : String) : containsSubstr (m ++ b) m = true := by
  unfold containsSubstr
  rw [List.any_eq_true]
  refine ⟨0, ?_, ?_⟩
  · rw [List.mem_range]
    omega
  · have h : (m ++ b).toList = m.toList ++ b.toList := by simp
    rw [h, List.drop_zero, List.isPrefixOf_iff_prefix]
    exact List.prefix_append _ _

/-- Substring containment survives prepending. -/
theorem containsSubstr_append_left (a s m : String)
    (h : containsSubstr s m = true) : containsSubstr (a ++ s) m = true := by
  unfold containsSubstr at h ⊢
  rw [List.any_eq_true] at h ⊢
  obtain ⟨i, hi, hp⟩ := h
  rw [List.mem_range] at hi
  refine ⟨a.toList.length + i, ?_, ?_⟩
  · rw [List.mem_range]
    have hl : (a ++ s).toList = a.toList ++ s.toList := by simp
    rw [hl, List.length_append]
    omega
  · have hl : (a ++ s).toList = a.toList ++ s.toList := by simp
    rw [hl, List.drop_append]
    exact hp

/-- Rolling back a session with nothing pending is a no-op. -/
theorem rollback_eq_self (db : DbState) (h1 : db.pendingServers = [])
    (h2 : db.pendingCredentials = []) (h3 : db.pendingCapabilities = []) :
    db.rollback = db := by
  cases db
  simp_all [DbState.rollback]

/-- Shape of a successful registration attempt: when the specification
validates, the primary health GET succeeds and the duplicate pre-check
finds nothing, `register_from_specification` commits exactly one new
server row plus the capability rows of `_store_capabilities`, and leaves
nothing pending. -/
theorem registerFromSpecification_success (settings : SettingsModel)
    (net : NetworkBehavior) (db0 : DbState) (spec : McpServerSpecification)
    (endpointUrl : String) (user : UserModel) (authConfig : Option AuthConfig)
    (environment : Option String) (requestId : Option String)
    (hvalid : validateSpecification spec = Except.ok ())
    (hconn : net.getOk (endpointUrl ++ "/health") = true)
    (hfind : (db0.servers ++ db0.pendingServers).find?
      (duplicatePredicate user spec (resolvedEnvironment settings environment)) = none) :
    ∃ server,
      (registerFromSpecification settings net db0 spec endpointUrl user authConfig
        environment requestId).result = Except.ok server
      ∧ server.org_id = user.org_id
      ∧ server.name = spec.server_info.name
      ∧ server.environment = resolvedEnvironment settings environment
      ∧ server.deleted_at = none
      ∧ (registerFromSpecification settings net db0 spec endpointUrl user authConfig
          environment requestId).db.servers =
          db0.servers ++ (db0.pendingServers ++ [server])
      ∧ (registerFromSpecification settings net db0 spec endpointUrl user authConfig
          environment requestId).db.pendingServers = []
      ∧ (registerFromSpecification settings net db0 spec endpointUrl user authConfig
          environment requestId).db.pendingCredentials = []
      ∧ (registerFromSpecification settings net db0 spec endpointUrl user authConfig
          environment requestId).db.pendingCapabilities = []
      ∧ (registerFromSpecification settings net db0 spec endpointUrl user authConfig
          environment requestId).db.capabilities =
          db0.capabilities ++
            (db0.pendingCapabilities ++
              ((spec.tools.getD []).map (toolCapabilityRow server spec)) ++
              ((spec.resources.getD []).map (resourceCapabilityRow server spec)) ++
              ((performHandshake net endpointUrl).1.capabilities.map
                (handshakeCapabilityRow server (performHandshake net endpointUrl).1)))
      ∧ (registerFromSpecification settings net db0 spec endpointUrl user authConfig
          environment requestId).trace =
          [{ method := "GET", url := endpointUrl ++ "/health", timeout := 30 }] ++
            (performHandshake net endpointUrl).2 := by
  have hconn' : testServerConnectivity net endpointUrl =
      (Except.ok (), [{ method := "GET", url := endpointUrl ++ "/health", timeout := 30 }]) := by
    simp [testServerConnectivity, hconn]
  cases authConfig with
  | none =>
    simp only [registerFromSpecification, hvalid, hconn', createServerRecord, hfind,
               storeCapabilities, DbState.commit]
    refine ⟨_, rfl, ?_⟩
    repeat' apply And.intro
    all_goals first | rfl | trivial
  | some ac =>
    simp only [registerFromSpecification, hvalid, hconn', createServerRecord, hfind,
               storeCapabilities, DbState.commit]
    refine ⟨_, rfl, ?_⟩
    repeat' apply And.intro
    all_goals first | rfl | trivial

/-- C3: registering the same (organization, name, environment) triple
twice, with the first row not soft-deleted, succeeds the first time and
fails the second time with a 400 conflict whose detail contains
`already exists`; after the failed second attempt the session state is
exactly the state after the first attempt (no duplicate row, no partial
write). -/
theorem duplicate_registration_conflict (settings : SettingsModel)
    (net : NetworkBehavior) (db0 : DbState) (spec : McpServerSpecification)
    (endpointUrl : String) (user : UserModel) (authConfig : Option AuthConfig)
    (environment : Option String) (requestId1 requestId2 : Option String)
    (hvalid : validateSpecification spec = Except.ok ())
    (hconn : net.getOk (endpointUrl ++ "/health") = true)
    (hps : db0.pendingServers = [])
    (hnodup : db0.servers.find? (duplicatePredicate user spec
      (resolvedEnvironment settings environment)) = none) :
    (∃ s, (registerFromSpecification settings net db0 spec endpointUrl user
        authConfig environment requestId1).result = Except.ok s)
    ∧ (registerFromSpecification settings net
        (registerFromSpecification settings net db0 spec endpointUrl user
          authConfig environment requestId1).db
        spec endpointUrl user authConfig environment requestId2).result =
        Except.error (RegError.httpException 400
          ("Server with name '" ++ spec.server_info.name ++ "' already exists in " ++
            resolvedEnvironment settings environment ++ " environment"))
    ∧ containsSubstr
        ("Server with name '" ++ spec.server_info.name ++ "' already exists in " ++
          resolvedEnvironment settings environment ++ " environment")
        "already exists" = true
    ∧ (registerFromSpecification settings net
        (registerFromSpecification settings net db0 spec endpointUrl user
          authConfig environment requestId1).db
        spec endpointUrl user authConfig environment requestId2).db =
      (registerFromSpecification settings net db0 spec endpointUrl user
        authConfig environment requestId1).db := by
  have hfind : (db0.servers ++ db0.pendingServers).find?
      (duplicatePredicate user spec (resolvedEnvironment settings environment)) = none := by
    rw [hps, List.append_nil]
    exact hnodup
  obtain ⟨server, hres, horg, hname, henv, hdel, hservers, hpend1, hpend2, hpend3,
    hcaps, htrace⟩ :=
    registerFromSpecification_success settings net db0 spec endpointUrl user
      authConfig environment requestId1 hvalid hconn hfind
  have hconn' : testServerConnectivity net endpointUrl =
      (Except.ok (), [{ method := "GET", url := endpointUrl ++ "/health", timeout := 30 }]) := by
    simp [testServerConnectivity, hconn]
  have hpred : duplicatePredicate user spec
      (resolvedEnvironment settings environment) server = true := by
    simp [duplicatePredicate, horg, hname, henv, hdel]
  refine ⟨⟨server, hres⟩, ?_⟩
  generalize hg : (registerFromSpecification settings net db0 spec endpointUrl user
      authConfig environment requestId1).db = D
  rw [hg] at hservers hpend1 hpend2 hpend3
  have hfind2 : (D.servers ++ D.pendingServers).find?
      (duplicatePredicate user spec (resolvedEnvironment settings environment)) =
      some server := by
    rw [hservers, hpend1, hps, List.append_nil, List.nil_append, List.find?_append,
        hnodup, Option.none_or]
    simp [List.find?, hpred]
  refine ⟨?_, ?_, ?_⟩
  · simp only [registerFromSpecification, hvalid, hconn', createServerRecord, hfind2]
  · have hlit : ("' already exists in " : String) = "' " ++ "already exists" ++ " in " := by
      decide
    rw [hlit]
    simp only [String.append_assoc]
    apply containsSubstr_append_left
    apply containsSubstr_append_left
    apply containsSubstr_append_left
    exact containsSubstr_self_prefix _ _
  · simp only [registerFromSpecification, hvalid, hconn', createServerRecord, hfind2]
    exact rollback_eq_self D hpend1 hpend2 hpend3

/-- Witness for C3: two sequential registrations of `payments` in
`staging` against an empty store. -/
theorem duplicate_registration_conflict_witness :
    (∃ s, (registerFromSpecification devSettings okNet emptyDb simpleSpec
        "https://api.example.com/mcp" probeUser none (some "staging") none).result =
        Except.ok s)
    ∧ (registerFromSpecification devSettings okNet
        (registerFromSpecification devSettings okNet emptyDb simpleSpec
          "https://api.example.com/mcp" probeUser none (some "staging") none).db
        simpleSpec "https://api.example.com/mcp" probeUser none (some "staging")
        none).result =
      Except.error (RegError.httpException 400
        "Server with name 'payments' already exists in staging environment") := by
  have h := duplicate_registration_conflict devSettings okNet emptyDb simpleSpec
    "https://api.example.com/mcp" probeUser none (some "staging") none none
    rfl rfl rfl rfl
  exact ⟨h.1, h.2.1⟩

/-- C4: when both the primary handshake POST to `<endpoint>/mcp/handshake`
and the fallback POST to `<endpoint>/handshake` fail, `_perform_handshake`
does not raise: it returns the synthetic minimal result (protocol version
`1.0`, server name `unknown`, empty capability map) after exactly the two
POST attempts, and registration then succeeds with zero
handshake-provenance capability rows. -/
theorem handshake_degradation (settings : SettingsModel) (net : NetworkBehavior)
    (db0 : DbState) (spec : McpServerSpecification) (endpointUrl : String)
    (user : UserModel) (authConfig : Option AuthConfig)
    (environment : Option String) (requestId : Option String)
    (hhs1 : net.postHandshake (endpointUrl ++ "/mcp/handshake") = none)
    (hhs2 : net.postHandshake (endpointUrl ++ "/handshake") = none)
    (hvalid : validateSpecification spec = Except.ok ())
    (hconn : net.getOk (endpointUrl ++ "/health") = true)
    (hpc : db0.pendingCapabilities = [])
    (hfind : (db0.servers ++ db0.pendingServers).find?
      (duplicatePredicate user spec (resolvedEnvironment settings environment)) = none) :
    performHandshake net endpointUrl =
      (minimalHandshakeResponse,
        [{ method := "POST", url := endpointUrl ++ "/mcp/handshake", timeout := 30 },
         { method := "POST", url := endpointUrl ++ "/handshake", timeout := 30 }])
    ∧ minimalHandshakeResponse.protocol_version = "1.0"
    ∧ minimalHandshakeResponse.server_info.name = "unknown"
    ∧ minimalHandshakeResponse.capabilities = []
    ∧ (∃ s, (registerFromSpecification settings net db0 spec endpointUrl user
        authConfig environment requestId).result = Except.ok s)
    ∧ countProvenance (registerFromSpecification settings net db0 spec endpointUrl
        user authConfig environment requestId).db.capabilities "handshake" =
      countProvenance db0.capabilities "handshake" := by
  have hph : performHandshake net endpointUrl =
      (minimalHandshakeResponse,
        [{ method := "POST", url := endpointUrl ++ "/mcp/handshake", timeout := 30 },
         { method := "POST", url := endpointUrl ++ "/handshake", timeout := 30 }]) := by
    simp [performHandshake, hhs1, hhs2, minimalHandshakeResponse]
  obtain ⟨server, hres, _, _, _, _, _, _, _, _, hcaps, _⟩ :=
    registerFromSpecification_success settings net db0 spec endpointUrl user
      authConfig environment requestId hvalid hconn hfind
  rw [hph] at hcaps
  simp only [minimalHandshakeResponse, List.map_nil, List.append_nil] at hcaps
  refine ⟨hph, rfl, rfl, rfl, ⟨server, hres⟩, ?_⟩
  have ht : countProvenance ((spec.tools.getD []).map (toolCapabilityRow server spec))
      "handshake" = 0 := by
    rw [countProvenance, List.countP_map]
    apply List.countP_eq_zero.2
    intro t _
    simp [discoveredFrom_toolRow]
  have hrs : countProvenance
      ((spec.resources.getD []).map (resourceCapabilityRow server spec))
      "handshake" = 0 := by
    rw [countProvenance, List.countP_map]
    apply List.countP_eq_zero.2
    intro r _
    simp [discoveredFrom_resourceRow]
  rw [hcaps, hpc]
  rw [List.nil_append, countProvenance_append, countProvenance_append, ht, hrs]
  omega

/-- Witness for C4: against a live endpoint whose handshake endpoints
both fail, the minimal synthetic result is substituted and registration
commits with no handshake-provenance rows. -/
theorem handshake_degradation_witness :
    performHandshake okNet "https://api.example.com/mcp" =
      (minimalHandshakeResponse,
        [{ method := "POST", url := "https://api.example.com/mcp/mcp/handshake",
           timeout := 30 },
         { method := "POST", url := "https://api.example.com/mcp/handshake",
           timeout := 30 }])
    ∧ (∃ s, (registerFromSpecification devSettings okNet emptyDb simpleSpec
        "https://api.example.com/mcp" probeUser none none none).result = Except.ok s)
    ∧ countProvenance (registerFromSpecification devSettings okNet emptyDb simpleSpec
        "https://api.example.com/mcp" probeUser none none none).db.capabilities
        "handshake" =
      countProvenance emptyDb.capabilities "handshake" := by
  have h := handshake_degradation devSettings okNet emptyDb simpleSpec
    "https://api.example.com/mcp" probeUser none none none
    rfl rfl rfl rfl rfl rfl
  exact ⟨h.1, h.2.2.2.2.1, h.2.2.2.2.2⟩

/-- C1 (code bug): for the link-local endpoint
`http://169.254.169.254/mcp` the egress validator does deny with a
reason naming the address, but `register_from_specification` discards
the returned verdict (`mcp_registration.py:55`), so with a responsive
endpoint the registration issues outbound requests, succeeds, and
commits a server row — instead of failing with a security-denial error
before any outbound call with zero rows written. -/
theorem register_ignores_egress_denial :
    validateUrlSecurity devSettings.ENVIRONMENT devSettings.ALLOWED_EGRESS_HOSTS
        (pyUrlparse "http://169.254.169.254/mcp") =
      (false, "Private IP address not allowed: 169.254.169.254")
    ∧ (∃ s, (registerFromSpecification devSettings okNet emptyDb simpleSpec
        "http://169.254.169.254/mcp" probeUser none none none).result = Except.ok s)
    ∧ (registerFromSpecification devSettings okNet emptyDb simpleSpec
        "http://169.254.169.254/mcp" probeUser none none none).trace =
      [{ method := "GET", url := "http://169.254.169.254/mcp/health", timeout := 30 },
       { method := "POST", url := "http://169.254.169.254/mcp/mcp/handshake", timeout := 30 },
       { method := "POST", url := "http://169.254.169.254/mcp/handshake", timeout := 30 }]
    ∧ (registerFromSpecification devSettings okNet emptyDb simpleSpec
        "http://169.254.169.254/mcp" probeUser none none none).db.servers.length = 1 :=
  ⟨by decide, ⟨_, rfl⟩, rfl, rfl⟩

/-- Production-mode settings (DEBUG off). -/
def prodSettings : SettingsModel :=
  { ENVIRONMENT := "production", DEBUG := false,
    ALLOWED_EGRESS_HOSTS := ["api.openai.com", "api.anthropic.com"] }

/-- C10 (code bug): with no caller-specified environment a direct
`register_from_specification` call does default the server environment
to `development` under DEBUG and `production` otherwise; but
`register_from_json_file` (and `register_from_url`) forward `request_id`
positionally into the `environment` parameter slot, so a file-based
registration with `request_id = "req-123"` creates its server with
environment `"req-123"`. -/
theorem environment_default_spec :
    (∃ s, (registerFromSpecification devSettings okNet emptyDb simpleSpec
        "https://api.example.com/mcp" probeUser none none none).result = Except.ok s
      ∧ s.environment = "development")
    ∧ (∃ s, (registerFromSpecification prodSettings okNet emptyDb simpleSpec
        "https://api.example.com/mcp" probeUser none none none).result = Except.ok s
      ∧ s.environment = "production")
    ∧ (∃ s, (registerFromJsonFile devSettings okNet emptyDb simpleSpec
        "https://api.example.com/mcp" probeUser none (some "req-123")).result =
        Except.ok s
      ∧ s.environment = "req-123") :=
  ⟨⟨_, rfl, rfl⟩, ⟨_, rfl, rfl⟩, ⟨_, rfl, rfl⟩⟩

end AgentConnect
